import Mathlib

/-!
Shallow embedding of the file-lifecycle service
(`src/backend/dist/services/file.service.js`) of the minimal-file-uploader
repository, together with the parts of its environment the service calls
into: the Prisma `File` table (a list of rows with an auto-increment id),
the object-storage provider (a key-addressed blob map plus a trace of the
storage calls that were issued), and the nondeterminism of the outside
world (which storage/database calls succeed, which UUID is generated,
which signed URL is returned), captured in an explicit `Env` record that
each operation consumes.
-/

namespace FileUploader

/-- A row of the Prisma `File` model: `id`, `filename` (the storage key
suffix), `originalName`, `contentType`, `size`, `signedUrl`, `uploadedAt`
(creation timestamp, `@default(now())`), `updatedAt` (`@updatedAt`),
`userId` (the owner). Timestamps are abstract `Nat` instants. -/
structure FileRec where
  id : Nat
  filename : String
  originalName : String
  contentType : String
  size : Nat
  signedUrl : String
  uploadedAt : Nat
  updatedAt : Nat
  userId : Nat
deriving Repr, DecidableEq

/-- The multer-style upload payload handed to the service:
`originalname`, `mimetype`, `size`, `buffer`. -/
structure FileData where
  originalname : String
  mimetype : String
  size : Nat
  buffer : String
deriving Repr, DecidableEq

/-- `ApiError(statusCode, message)` as thrown by the service. -/
structure ApiError where
  statusCode : Nat
  message : String
deriving Repr, DecidableEq

/-- One call issued to the storage provider (`uploadData`,
`generateDownloadSignedUrl`, `deleteFile`), recording the bucket and the
object key it addressed. -/
inductive StorageCall where
  | uploadData (bucketName key : String)
  | genSignedUrl (bucketName key : String)
  | del (bucketName key : String)
deriving Repr, DecidableEq

/-- The object key a storage call addressed. -/
def StorageCall.key : StorageCall → String
  | .uploadData _ k => k
  | .genSignedUrl _ k => k
  | .del _ k => k

/-- The world the service acts on: the `File` table (`db`) with its
auto-increment counter (`nextId`), the blob store as an association list
from object key to stored bytes (`storage`), the reverse-chronological
trace of storage calls issued so far (`trace`), and the current clock
used for Prisma's `now()` / `@updatedAt` (`now`). -/
structure St where
  db : List FileRec
  nextId : Nat
  storage : List (String × String)
  trace : List StorageCall
  now : Nat
deriving Repr, DecidableEq

/-- Outcomes of the nondeterministic steps of one service call: the UUID
the `uuid()` call produces, the URL `generateDownloadSignedUrl` would
return, and whether the storage upload, the signed-URL generation, the
storage delete, and the guarded database write each succeed. The fate of
the unguarded database reads (the `findFirst` opening get/update/delete
and the `findMany` of list, which sit outside every try/catch) is
modeled separately in `EnvR`. -/
structure Env where
  uuid : String
  url : String
  uploadOk : Bool
  signOk : Bool
  delOk : Bool
  dbOk : Bool
deriving Repr, DecidableEq

/-- The content-type allow-list of `uploadFile`/`updateFileById`. -/
def allowedTypes : List String :=
  [ "application/pdf"
  , "application/msword"
  , "application/vnd.openxmlformats-officedocument.wordprocessingml.document"
  , "text/plain"
  , "image/png"
  , "image/jpeg"
  , "image/jpg"
  , "image/gif" ]

/-- `maxSize = 10 * 1024 * 1024` (10MB limit). -/
def maxSize : Nat := 10 * 1024 * 1024

/-- The part of the character list after its last `'/'` (the POSIX
basename step of `path.extname`). -/
def afterLastSlash : List Char → List Char
  | [] => []
  | c :: cs =>
      if '/' ∈ cs then afterLastSlash cs
      else if c = '/' then cs else c :: cs

/-- The suffix of a character list starting at its last `'.'` (the dot
included), or `[]` when it has no dot. -/
def extTail : List Char → List Char
  | [] => []
  | c :: cs =>
      if '.' ∈ cs then extTail cs
      else if c = '.' then c :: cs else extTail cs

/-- Models Node's `path.extname`: the suffix of the basename starting at
its last dot, and `""` when the basename has no dot or its only dot is
the leading character (dotfiles). -/
def extnameChars (cs : List Char) : List Char :=
  match afterLastSlash cs with
  | [] => []
  | _ :: rest => extTail rest

/-- `path.extname` on strings. -/
def extname (s : String) : String :=
  (extnameChars s.data).asString

/-- The object key the service builds for owner `userId` and generated
filename `filename`: `` `files/${userId}/${filename}` ``. -/
def mkKey (userId : Nat) (filename : String) : String :=
  "files/" ++ toString userId ++ "/" ++ filename

/-- Record one storage call in the trace (most recent first). -/
def recordCall (c : StorageCall) (st : St) : St :=
  { st with trace := c :: st.trace }

/-- Blob-store write: overwrites any blob already stored at `key`. -/
def storagePut (key data : String) (st : St) : St :=
  { st with storage := (key, data) :: st.storage.filter (fun kv => kv.1 ≠ key) }

/-- Blob-store delete: removes the blob at `key`; deleting an absent key
is a no-op (absence is tolerated). -/
def storageErase (key : String) (st : St) : St :=
  { st with storage := st.storage.filter (fun kv => kv.1 ≠ key) }

/-- The set of keys currently holding a blob. -/
def storageKeys (st : St) : List String :=
  st.storage.map Prod.fst

/-- `prisma.file.findFirst({ where: { id, userId } })`. -/
def findFirst (db : List FileRec) (id userId : Nat) : Option FileRec :=
  db.find? (fun f => f.id == id && f.userId == userId)

/-- `prisma.file.update({ where: { id }, data })`: applies `data` to the
row whose `id` matches and touches its `@updatedAt` column. -/
def dbUpdateById (id : Nat) (data : FileRec → FileRec) (now : Nat)
    (db : List FileRec) : List FileRec :=
  db.map (fun r => if r.id == id then { data r with updatedAt := now } else r)

/-- `uploadFile(fileData, userId)`: validates the content type against the
allow-list (415 on failure) and the size against the 10MB cap (413 on
failure), generates `filename = uuid() + extname(originalname)` and
`key = files/userId/filename`, then inside a try/catch uploads the blob,
generates a signed URL, and creates the database record; any failure in
the try block surfaces as a 500 `Failed to upload file`. -/
def uploadFile (env : Env) (bucketName : String) (fileData : FileData)
    (userId : Nat) (st : St) : Except ApiError FileRec × St :=
  if fileData.mimetype ∉ allowedTypes then
    (.error ⟨415, "Unsupported file type"⟩, st)
  else if fileData.size > maxSize then
    (.error ⟨413, "File size exceeds 10MB limit"⟩, st)
  else
    let filename := env.uuid ++ extname fileData.originalname
    let key := mkKey userId filename
    let st1 := recordCall (.uploadData bucketName key) st
    if env.uploadOk = false then
      (.error ⟨500, "Failed to upload file"⟩, st1)
    else
      let st2 := storagePut key fileData.buffer st1
      let st3 := recordCall (.genSignedUrl bucketName key) st2
      if env.signOk = false then
        (.error ⟨500, "Failed to upload file"⟩, st3)
      else if env.dbOk = false then
        (.error ⟨500, "Failed to upload file"⟩, st3)
      else
        let file : FileRec :=
          { id := st3.nextId
          , filename := filename
          , originalName := fileData.originalname
          , contentType := fileData.mimetype
          , size := fileData.size
          , signedUrl := env.url
          , uploadedAt := st3.now
          , updatedAt := st3.now
          , userId := userId }
        (.ok file, { st3 with db := st3.db ++ [file], nextId := st3.nextId + 1 })

/-- `getFileById(id, userId)`: owner-scoped `findFirst`; `null` when no
matching row. Otherwise tries to regenerate the signed URL and persist it
(`prisma.file.update({ where: { id }, data: { signedUrl } })`); on any
failure in that try block it returns the row with its existing signed
URL. -/
def getFileById (env : Env) (bucketName : String) (id userId : Nat)
    (st : St) : Option FileRec × St :=
  match findFirst st.db id userId with
  | none => (none, st)
  | some file =>
      let key := mkKey userId file.filename
      let st1 := recordCall (.genSignedUrl bucketName key) st
      if env.signOk = false then
        (some file, st1)
      else if env.dbOk = false then
        (some file, st1)
      else
        (some { file with signedUrl := env.url, updatedAt := st1.now }
        , { st1 with
            db := dbUpdateById id (fun r => { r with signedUrl := env.url })
                    st1.now st1.db })

/-- The sortable columns `getFiles` validation admits. -/
inductive SortField where
  | uploadedAt
  | originalName
  | size
  | contentType
deriving Repr, DecidableEq

/-- Sort directions. -/
inductive SortDir where
  | asc
  | desc
deriving Repr, DecidableEq

/-- Query options of `queryUserFiles`; absent fields take the service's
defaults (`page 1`, `limit 10`, `uploadedAt`, `desc`). -/
structure QueryOptions where
  page : Option Nat
  limit : Option Nat
  sortBy : Option SortField
  sortType : Option SortDir
deriving Repr, DecidableEq

/-- Ascending comparison on the requested column. -/
def fieldLeAsc (f : SortField) (a b : FileRec) : Bool :=
  match f with
  | .uploadedAt => a.uploadedAt ≤ b.uploadedAt
  | .originalName => a.originalName ≤ b.originalName
  | .size => a.size ≤ b.size
  | .contentType => a.contentType ≤ b.contentType

/-- The comparison `orderBy: { [sortBy]: sortType }` sorts by. -/
def fieldLe (f : SortField) (d : SortDir) (a b : FileRec) : Bool :=
  match d with
  | .asc => fieldLeAsc f a b
  | .desc => fieldLeAsc f b a

/-- `queryUserFiles(userId, options)`: defaults `page` to 1, `limit` to
10, `sortBy` to `uploadedAt`, `sortType` to `desc`, then
`findMany({ where: { userId }, skip: (page-1)*limit, take: limit,
orderBy })`. -/
def queryUserFiles (userId : Nat) (options : QueryOptions) (st : St) :
    List FileRec :=
  let page := options.page.getD 1
  let limit := options.limit.getD 10
  let sortBy := options.sortBy.getD .uploadedAt
  let sortType := options.sortType.getD .desc
  ((((st.db.filter (fun f => f.userId == userId)).mergeSort
      (fieldLe sortBy sortType)).drop ((page - 1) * limit)).take limit)

/-- `updateFileById(id, userId, fileData)`: owner-scoped existence check
(404), the same content-type (415) and size (413) validation as upload,
then inside a try/catch deletes the old blob, uploads the new one under a
newly generated key, regenerates the signed URL, and updates the row's
`filename`, `originalName`, `contentType`, `size`, `signedUrl`; any
failure in the try block surfaces as a 500 `Failed to update file`. -/
def updateFileById (env : Env) (bucketName : String) (id userId : Nat)
    (fileData : FileData) (st : St) : Except ApiError FileRec × St :=
  match findFirst st.db id userId with
  | none => (.error ⟨404, "File not found"⟩, st)
  | some existingFile =>
      if fileData.mimetype ∉ allowedTypes then
        (.error ⟨415, "Unsupported file type"⟩, st)
      else if fileData.size > maxSize then
        (.error ⟨413, "File size exceeds 10MB limit"⟩, st)
      else
        let oldKey := mkKey userId existingFile.filename
        let st1 := recordCall (.del bucketName oldKey) st
        if env.delOk = false then
          (.error ⟨500, "Failed to update file"⟩, st1)
        else
          let st2 := storageErase oldKey st1
          let filename := env.uuid ++ extname fileData.originalname
          let key := mkKey userId filename
          let st3 := recordCall (.uploadData bucketName key) st2
          if env.uploadOk = false then
            (.error ⟨500, "Failed to update file"⟩, st3)
          else
            let st4 := storagePut key fileData.buffer st3
            let st5 := recordCall (.genSignedUrl bucketName key) st4
            if env.signOk = false then
              (.error ⟨500, "Failed to update file"⟩, st5)
            else if env.dbOk = false then
              (.error ⟨500, "Failed to update file"⟩, st5)
            else
              let newData : FileRec → FileRec := fun r =>
                { r with
                  filename := filename
                , originalName := fileData.originalname
                , contentType := fileData.mimetype
                , size := fileData.size
                , signedUrl := env.url }
              (.ok { newData existingFile with updatedAt := st5.now }
              , { st5 with db := dbUpdateById id newData st5.now st5.db })

/-- `deleteFileById(id, userId)`: owner-scoped existence check (404),
then inside a try/catch deletes the blob and then the database row
(`prisma.file.delete({ where: { id } })`); any failure in the try block
surfaces as a 500 `Failed to delete file`. -/
def deleteFileById (env : Env) (bucketName : String) (id userId : Nat)
    (st : St) : Except ApiError FileRec × St :=
  match findFirst st.db id userId with
  | none => (.error ⟨404, "File not found"⟩, st)
  | some file =>
      let key := mkKey userId file.filename
      let st1 := recordCall (.del bucketName key) st
      if env.delOk = false then
        (.error ⟨500, "Failed to delete file"⟩, st1)
      else
        let st2 := storageErase key st1
        if env.dbOk = false then
          (.error ⟨500, "Failed to delete file"⟩, st2)
        else
          (.ok file, { st2 with db := st2.db.filter (fun r => ¬ r.id = id) })

/-- The HTTP status code of a service outcome, `0` on success. -/
def errCode {α : Type} (r : Except ApiError α) : Nat :=
  match r with
  | .ok _ => 0
  | .error e => e.statusCode

/-- The decimal digit characters of `n`, most significant first: the
fuel-free characterisation of `Nat.toDigitsCore 10` (and hence of
`Nat.repr`, the rendering `toString` applies to the numeric `userId`
inside the template literal building object keys). -/
def decChars (n : Nat) : List Char :=
  if n < 10 then [Nat.digitChar n]
  else decChars (n / 10) ++ [Nat.digitChar (n % 10)]
termination_by n
decreasing_by exact Nat.div_lt_self (by omega) (by omega)

/-- Decimal decoding, a left inverse of `decChars`. -/
def decodeDec (cs : List Char) : Nat :=
  cs.foldl (fun a c => 10 * a + (c.toNat - 48)) 0

/-- `k` is an object key of owner `userId`: `files/<userId>/<fn>` for a
slash-free filename `fn`. -/
def ownedKey (userId : Nat) (k : String) : Prop :=
  ∃ fn : String, '/' ∉ fn.data ∧ k = mkKey userId fn

/-- A sample stored record owned by user 2. -/
def rec1 : FileRec :=
  { id := 1
  , filename := "u1.pdf"
  , originalName := "doc.pdf"
  , contentType := "application/pdf"
  , size := 100
  , signedUrl := "https://signed.example/1"
  , uploadedAt := 5
  , updatedAt := 5
  , userId := 2 }

/-- A sample world holding just `rec1` and its blob. -/
def st1 : St :=
  { db := [rec1]
  , nextId := 2
  , storage := [(mkKey 2 "u1.pdf", "OLDBYTES")]
  , trace := []
  , now := 9 }

/-- An environment in which every external call succeeds. -/
def envAllOk : Env :=
  { uuid := "u2"
  , url := "https://signed.example/2"
  , uploadOk := true
  , signOk := true
  , delOk := true
  , dbOk := true }

/-- An environment whose storage upload fails. -/
def envUploadFail : Env :=
  { envAllOk with uploadOk := false }

/-- An environment whose signed-URL generation fails. -/
def envSignFail : Env :=
  { envAllOk with signOk := false }

/-- A valid pdf upload payload. -/
def pdfData : FileData :=
  ⟨"new.pdf", "application/pdf", 123, "NEWBYTES"⟩

/-- A payload whose content type is outside the allow-list. -/
def badTypeData : FileData :=
  ⟨"evil.exe", "application/x-msdownload", 10, "X"⟩

/-- A payload one byte over the 10MB cap. -/
def tooBigData : FileData :=
  ⟨"big.pdf", "application/pdf", 10 * 1024 * 1024 + 1, "Y"⟩

/-- Service outcome in the read-fallible model: a success value, a typed
`ApiError` thrown by the service, or the raw (opaque, untyped) rejection
of a database call that no try/catch in the service intercepts. -/
inductive Outcome (α : Type) where
  | ok (a : α)
  | apiError (e : ApiError)
  | raw
deriving Repr, DecidableEq

/-- `some 0` for success, `some statusCode` for a typed `ApiError`,
`none` for a raw, untyped failure. -/
def Outcome.code {α : Type} : Outcome α → Option Nat
  | .ok _ => some 0
  | .apiError e => some e.statusCode
  | .raw => none

/-- `Env` extended with the fate of the unguarded Prisma reads: the
`findFirst` opening `getFileById`, `updateFileById`, and
`deleteFileById` and the `findMany` of `queryUserFiles` sit outside
every try/catch in the service, so when such a read rejects
(`readOk = false`) the raw error escapes the service untyped. -/
structure EnvR where
  uuid : String
  url : String
  uploadOk : Bool
  signOk : Bool
  delOk : Bool
  dbOk : Bool
  readOk : Bool
deriving Repr, DecidableEq

/-- The guarded-call environment underlying a read-fallible
environment. -/
def EnvR.toEnv (e : EnvR) : Env :=
  ⟨e.uuid, e.url, e.uploadOk, e.signOk, e.delOk, e.dbOk⟩

/-- Lift a typed service result to an `Outcome`. -/
def liftExcept {α : Type} : Except ApiError α → Outcome α
  | .ok a => .ok a
  | .error e => .apiError e

/-- `uploadFile` in the read-fallible model: upload performs no database
call outside its try/catch (`prisma.file.create` is guarded), so its
outcome is always typed. -/
def uploadFileR (env : EnvR) (bucketName : String) (fileData : FileData)
    (userId : Nat) (st : St) : Outcome FileRec × St :=
  let r := uploadFile env.toEnv bucketName fileData userId st
  (liftExcept r.1, r.2)

/-- `getFileById` in the read-fallible model: the opening
`prisma.file.findFirst` is unguarded, so its rejection escapes raw
before any other effect; on a successful read the operation behaves as
`getFileById`. -/
def getFileByIdR (env : EnvR) (bucketName : String) (id userId : Nat)
    (st : St) : Outcome (Option FileRec) × St :=
  if env.readOk = false then (.raw, st)
  else
    let r := getFileById env.toEnv bucketName id userId st
    (.ok r.1, r.2)

/-- `queryUserFiles` in the read-fallible model: its
`prisma.file.findMany` has no try/catch at all. -/
def queryUserFilesR (env : EnvR) (userId : Nat) (options : QueryOptions)
    (st : St) : Outcome (List FileRec) × St :=
  if env.readOk = false then (.raw, st)
  else (.ok (queryUserFiles userId options st), st)

/-- `updateFileById` in the read-fallible model: unguarded opening
`findFirst`; every later database call is inside the try/catch. -/
def updateFileByIdR (env : EnvR) (bucketName : String) (id userId : Nat)
    (fileData : FileData) (st : St) : Outcome FileRec × St :=
  if env.readOk = false then (.raw, st)
  else
    let r := updateFileById env.toEnv bucketName id userId fileData st
    (liftExcept r.1, r.2)

/-- `deleteFileById` in the read-fallible model: unguarded opening
`findFirst`; every later database call is inside the try/catch. -/
def deleteFileByIdR (env : EnvR) (bucketName : String) (id userId : Nat)
    (st : St) : Outcome FileRec × St :=
  if env.readOk = false then (.raw, st)
  else
    let r := deleteFileById env.toEnv bucketName id userId st
    (liftExcept r.1, r.2)

/-- A read-fallible environment in which every external call succeeds. -/
def envRAllOk : EnvR :=
  { uuid := "u2"
  , url := "https://signed.example/2"
  , uploadOk := true
  , signOk := true
  , delOk := true
  , dbOk := true
  , readOk := true }

/-- A read-fallible environment whose unguarded database read rejects. -/
def envReadFail : EnvR :=
  { envRAllOk with readOk := false }

/- ### Helper lemmas -/

theorem findFirst_eq_none_of_not_owned (db : List FileRec) (id userId : Nat)
    (h : ∀ f ∈ db, f.id = id → f.userId ≠ userId) :
    findFirst db id userId = none := by
  simp only [findFirst, List.find?_eq_none, Bool.and_eq_true, beq_iff_eq,
    not_and]
  intro f hf h1 h2
  exact h f hf h1 h2

theorem findFirst_append_singleton (db : List FileRec) (f : FileRec)
    (id userId : Nat) (h : findFirst db id userId = none) :
    findFirst (db ++ [f]) id userId = findFirst [f] id userId := by
  simp only [findFirst] at h ⊢
  rw [List.find?_append, h, Option.none_or]

theorem getFileById_preserves_fields (env : Env) (bucketName : String)
    (id userId : Nat) (st : St) (f : FileRec)
    (h : findFirst st.db id userId = some f) :
    ∃ g, (getFileById env bucketName id userId st).1 = some g ∧
      g.id = f.id ∧ g.contentType = f.contentType ∧ g.size = f.size ∧
      g.originalName = f.originalName ∧ g.userId = f.userId ∧
      g.uploadedAt = f.uploadedAt := by
  by_cases h2 : env.signOk = true
  · by_cases h3 : env.dbOk = true
    · exact ⟨{ f with signedUrl := env.url, updatedAt := st.now },
        by simp [getFileById, h, h2, h3, recordCall], rfl, rfl, rfl, rfl,
        rfl, rfl⟩
    · exact ⟨f, by simp [getFileById, h, h2, h3, recordCall], rfl, rfl, rfl,
        rfl, rfl, rfl⟩
  · exact ⟨f, by simp [getFileById, h, h2, recordCall], rfl, rfl, rfl, rfl,
      rfl, rfl⟩

theorem mkKey_filename_inj {userId : Nat} {a b : String}
    (h : mkKey userId a = mkKey userId b) : a = b := by
  have hd := congrArg String.data h
  simp only [mkKey, String.data_append, List.append_assoc,
    List.append_cancel_left_eq] at hd
  exact String.ext hd

theorem fieldLe_trans (sf : SortField) (d : SortDir) (a b c : FileRec)
    (h1 : fieldLe sf d a b = true) (h2 : fieldLe sf d b c = true) :
    fieldLe sf d a c = true := by
  cases sf <;> cases d <;>
    simp only [fieldLe, fieldLeAsc, decide_eq_true_eq] at h1 h2 ⊢ <;>
    first
      | exact le_trans h1 h2
      | exact le_trans h2 h1

theorem fieldLe_total (sf : SortField) (d : SortDir) (a b : FileRec) :
    (fieldLe sf d a b || fieldLe sf d b a) = true := by
  cases sf <;> cases d <;>
    simp only [fieldLe, fieldLeAsc, Bool.or_eq_true, decide_eq_true_eq] <;>
    exact le_total _ _

theorem toDigitsCore_eq (f : Nat) :
    ∀ (n : Nat) (l : List Char), n < f →
      Nat.toDigitsCore 10 f n l = decChars n ++ l := by
  induction f with
  | zero => intro n l h; omega
  | succ f ih =>
      intro n l h
      by_cases h10 : n / 10 = 0
      · have hn : n < 10 := by omega
        have hd : decChars n = [Nat.digitChar n] := by
          rw [decChars, if_pos hn]
        simp only [Nat.toDigitsCore]
        rw [if_pos h10, hd, Nat.mod_eq_of_lt hn]
        rfl
      · have hn : ¬ n < 10 := by omega
        have hlt : n / 10 < f := by omega
        have hd : decChars n =
            decChars (n / 10) ++ [Nat.digitChar (n % 10)] := by
          rw [decChars, if_neg hn]
        simp only [Nat.toDigitsCore]
        rw [if_neg h10, ih (n / 10) (Nat.digitChar (n % 10) :: l) hlt, hd,
          List.append_assoc]
        rfl

theorem repr_data (n : Nat) : (Nat.repr n).data = decChars n := by
  show (Nat.toDigits 10 n).asString.data = decChars n
  unfold Nat.toDigits
  rw [toDigitsCore_eq (n + 1) n [] (Nat.lt_succ_self n)]
  show decChars n ++ [] = decChars n
  rw [List.append_nil]

theorem digitChar_ne_slash (d : Nat) (h : d < 10) :
    Nat.digitChar d ≠ '/' := by
  interval_cases d <;> decide

theorem digitChar_toNat (d : Nat) (h : d < 10) :
    (Nat.digitChar d).toNat - 48 = d := by
  interval_cases d <;> decide

theorem decChars_no_slash (n : Nat) : '/' ∉ decChars n := by
  induction n using Nat.strong_induction_on with
  | _ n ih =>
      by_cases h : n < 10
      · rw [decChars, if_pos h]
        intro hmem
        exact digitChar_ne_slash n h (List.mem_singleton.mp hmem).symm
      · rw [decChars, if_neg h]
        intro hmem
        rcases List.mem_append.mp hmem with h1 | h1
        · exact ih (n / 10) (Nat.div_lt_self (by omega) (by omega)) h1
        · exact digitChar_ne_slash (n % 10) (Nat.mod_lt _ (by omega))
            (List.mem_singleton.mp h1).symm

theorem foldl_decChars (n : Nat) : ∀ a : Nat,
    (decChars n).foldl (fun x c => 10 * x + (c.toNat - 48)) a =
      a * 10 ^ (decChars n).length + n := by
  induction n using Nat.strong_induction_on with
  | _ n ih =>
      intro a
      by_cases h : n < 10
      · have hd : decChars n = [Nat.digitChar n] := by
          rw [decChars, if_pos h]
        rw [hd]
        simp only [List.foldl_cons, List.foldl_nil, List.length_singleton]
        rw [digitChar_toNat n h]
        ring_nf
      · have hd : decChars n =
            decChars (n / 10) ++ [Nat.digitChar (n % 10)] := by
          rw [decChars, if_neg h]
        rw [hd, List.foldl_append]
        simp only [List.foldl_cons, List.foldl_nil, List.length_append,
          List.length_singleton]
        rw [ih (n / 10) (Nat.div_lt_self (by omega) (by omega)) a,
          digitChar_toNat (n % 10) (Nat.mod_lt _ (by omega))]
        have hX : a * 10 ^ ((decChars (n / 10)).length + 1) =
            a * 10 ^ (decChars (n / 10)).length * 10 := by ring
        rw [hX]
        omega

theorem decodeDec_decChars (n : Nat) : decodeDec (decChars n) = n := by
  show (decChars n).foldl (fun x c => 10 * x + (c.toNat - 48)) 0 = n
  rw [foldl_decChars n 0]
  simp

theorem nat_repr_injective {m n : Nat} (h : Nat.repr m = Nat.repr n) :
    m = n := by
  have hd : decChars m = decChars n := by
    rw [← repr_data, ← repr_data, h]
  have h2 := congrArg decodeDec hd
  rwa [decodeDec_decChars, decodeDec_decChars] at h2

theorem seg_append_inj : ∀ (xs ys as bs : List Char), '/' ∉ xs →
    '/' ∉ ys → xs ++ '/' :: as = ys ++ '/' :: bs → xs = ys ∧ as = bs := by
  intro xs
  induction xs with
  | nil =>
      intro ys as bs _ hy h
      cases ys with
      | nil =>
          simp only [List.nil_append, List.cons.injEq] at h
          exact ⟨rfl, h.2⟩
      | cons y ys =>
          simp only [List.nil_append, List.cons_append,
            List.cons.injEq] at h
          exfalso
          apply hy
          rw [← h.1]
          exact List.mem_cons_self _ _
  | cons x xs ih =>
      intro ys as bs hx hy h
      cases ys with
      | nil =>
          simp only [List.cons_append, List.nil_append,
            List.cons.injEq] at h
          exfalso
          apply hx
          rw [h.1]
          exact List.mem_cons_self _ _
      | cons y ys =>
          simp only [List.cons_append, List.cons.injEq] at h
          have hx2 : '/' ∉ xs := fun hm => hx (List.mem_cons_of_mem _ hm)
          have hy2 : '/' ∉ ys := fun hm => hy (List.mem_cons_of_mem _ hm)
          obtain ⟨h1, h2⟩ := ih ys as bs hx2 hy2 h.2
          exact ⟨by rw [h.1, h1], h2⟩

theorem toString_nat_no_slash (u : Nat) : '/' ∉ (toString u).data := by
  show '/' ∉ (Nat.repr u).data
  rw [repr_data]
  exact decChars_no_slash u

theorem mkKey_owner_inj {u v : Nat} {a b : String}
    (h : mkKey u a = mkKey v b) : u = v ∧ a = b := by
  have hd := congrArg String.data h
  simp only [mkKey, String.data_append, List.append_assoc] at hd
  have hd2 := List.append_cancel_left hd
  have hsl : ∀ s : List Char, ("/" : String).data ++ s = '/' :: s :=
    fun s => rfl
  rw [hsl, hsl] at hd2
  obtain ⟨h1, h2⟩ := seg_append_inj _ _ _ _ (toString_nat_no_slash u)
    (toString_nat_no_slash v) hd2
  have hr : Nat.repr u = Nat.repr v := String.ext h1
  exact ⟨nat_repr_injective hr, String.ext h2⟩

theorem afterLastSlash_no_slash (cs : List Char) :
    '/' ∉ afterLastSlash cs := by
  induction cs with
  | nil => simp [afterLastSlash]
  | cons c cs ih =>
      rw [afterLastSlash]
      by_cases h1 : '/' ∈ cs
      · rw [if_pos h1]; exact ih
      · rw [if_neg h1]
        by_cases h2 : c = '/'
        · rw [if_pos h2]; exact h1
        · rw [if_neg h2]
          intro hm
          rcases List.mem_cons.mp hm with h | h
          · exact h2 h.symm
          · exact h1 h

theorem extTail_subset (cs : List Char) : ∀ x ∈ extTail cs, x ∈ cs := by
  induction cs with
  | nil => simp [extTail]
  | cons c cs ih =>
      intro x hx
      rw [extTail] at hx
      by_cases h1 : '.' ∈ cs
      · rw [if_pos h1] at hx
        exact List.mem_cons_of_mem _ (ih x hx)
      · rw [if_neg h1] at hx
        by_cases h2 : c = '.'
        · rw [if_pos h2] at hx
          exact hx
        · rw [if_neg h2] at hx
          exact List.mem_cons_of_mem _ (ih x hx)

theorem extnameChars_no_slash (cs : List Char) :
    '/' ∉ extnameChars cs := by
  rw [extnameChars]
  cases hb : afterLastSlash cs with
  | nil => simp
  | cons c rest =>
      intro hm
      have h1 : '/' ∈ afterLastSlash cs := by
        rw [hb]
        exact List.mem_cons_of_mem _ (extTail_subset rest '/' hm)
      exact afterLastSlash_no_slash cs h1

theorem filename_no_slash (uuid orig : String)
    (hu : '/' ∉ uuid.data) : '/' ∉ (uuid ++ extname orig).data := by
  rw [String.data_append]
  intro hm
  rcases List.mem_append.mp hm with h | h
  · exact hu h
  · exact extnameChars_no_slash orig.data h

theorem mem_calls_append {calls base : List StorageCall} {userId : Nat}
    (h : ∀ c ∈ calls, ownedKey userId c.key) :
    ∀ c ∈ calls ++ base, c ∈ base ∨ ownedKey userId c.key := by
  intro c hc
  rcases List.mem_append.mp hc with h1 | h1
  · exact Or.inr (h c h1)
  · exact Or.inl h1

/- ### Claims -/

/-- C1: for `get`, `update`, and `delete`, an `(id, userId)` pair whose
record belongs to a different owner is indistinguishable from an absent
id: whenever no record with this `id` belongs to `userId` (which covers
both the foreign-owner case and the absent-id case), `get` returns
`null`, `update` and `delete` fail with 404 `File not found`, and the
whole state — database, blob store, and storage-call trace — is left
unchanged, so the existence of the other owner's record is not
observable. -/
theorem c1_cross_owner_indistinguishable (env : Env) (bucketName : String)
    (fileData : FileData) (id userId : Nat) (st : St)
    (h : ∀ f ∈ st.db, f.id = id → f.userId ≠ userId) :
    getFileById env bucketName id userId st = (none, st) ∧
    updateFileById env bucketName id userId fileData st =
      (.error ⟨404, "File not found"⟩, st) ∧
    deleteFileById env bucketName id userId st =
      (.error ⟨404, "File not found"⟩, st) := by
  have hf : findFirst st.db id userId = none :=
    findFirst_eq_none_of_not_owned _ _ _ h
  refine ⟨?_, ?_, ?_⟩ <;>
    simp [getFileById, updateFileById, deleteFileById, hf]

/-- Witness for C1: user 1 probing `rec1`, which exists but is owned by
user 2, gets exactly the absent-id behaviour. -/
theorem c1_witness :
    getFileById envAllOk "b" 1 1 st1 = (none, st1) ∧
    updateFileById envAllOk "b" 1 1 pdfData st1 =
      (.error ⟨404, "File not found"⟩, st1) ∧
    deleteFileById envAllOk "b" 1 1 st1 =
      (.error ⟨404, "File not found"⟩, st1) :=
  c1_cross_owner_indistinguishable envAllOk "b" pdfData 1 1 st1 (by decide)

/-- C2: for `upload`, and for `update` on an existing owned record, a
content type outside the allow-list fails with 415 Unsupported Media
Type, and an allowed content type with `size > 10*1024*1024` fails with
413 Too Large; in every such case the returned state is the input state,
so no storage call is issued and no database record is created or
modified. -/
theorem c2_validation_rejects_without_side_effects (env : Env)
    (bucketName : String) (fileData : FileData) (id userId : Nat) (st : St) :
    (fileData.mimetype ∉ allowedTypes →
      uploadFile env bucketName fileData userId st =
        (.error ⟨415, "Unsupported file type"⟩, st)) ∧
    (fileData.mimetype ∈ allowedTypes → fileData.size > maxSize →
      uploadFile env bucketName fileData userId st =
        (.error ⟨413, "File size exceeds 10MB limit"⟩, st)) ∧
    (∀ f, findFirst st.db id userId = some f →
      (fileData.mimetype ∉ allowedTypes →
        updateFileById env bucketName id userId fileData st =
          (.error ⟨415, "Unsupported file type"⟩, st)) ∧
      (fileData.mimetype ∈ allowedTypes → fileData.size > maxSize →
        updateFileById env bucketName id userId fileData st =
          (.error ⟨413, "File size exceeds 10MB limit"⟩, st))) := by
  refine ⟨fun h1 => ?_, fun h1 h2 => ?_, fun f hf => ⟨fun h1 => ?_, fun h1 h2 => ?_⟩⟩
  · simp [uploadFile, h1]
  · simp [uploadFile, h1, h2]
  · simp [updateFileById, hf, h1]
  · simp [updateFileById, hf, h1, h2]

/-- Witness for C2: a disallowed content type and an oversized payload
are rejected by both `upload` and `update` with the input state
untouched. -/
theorem c2_witness :
    uploadFile envAllOk "b" badTypeData 2 st1 =
      (.error ⟨415, "Unsupported file type"⟩, st1) ∧
    uploadFile envAllOk "b" tooBigData 2 st1 =
      (.error ⟨413, "File size exceeds 10MB limit"⟩, st1) ∧
    updateFileById envAllOk "b" 1 2 badTypeData st1 =
      (.error ⟨415, "Unsupported file type"⟩, st1) ∧
    updateFileById envAllOk "b" 1 2 tooBigData st1 =
      (.error ⟨413, "File size exceeds 10MB limit"⟩, st1) := by
  refine
    ⟨(c2_validation_rejects_without_side_effects envAllOk "b" badTypeData
        1 2 st1).1 (by decide),
     (c2_validation_rejects_without_side_effects envAllOk "b" tooBigData
        1 2 st1).2.1 (by decide) (by decide),
     ((c2_validation_rejects_without_side_effects envAllOk "b" badTypeData
        1 2 st1).2.2 rec1 (by decide)).1 (by decide),
     ((c2_validation_rejects_without_side_effects envAllOk "b" tooBigData
        1 2 st1).2.2 rec1 (by decide)).2 (by decide) (by decide)⟩

/-- C7: for a valid upload payload, if the storage write fails the caller
receives the 500 storage error and the only change to the world is the
recorded `uploadData` call — in particular the database is unchanged and
no blob is stored; moreover, for any environment, the database can only
have changed if the blob write succeeded, i.e. the blob write precedes
record creation. -/
theorem c7_storage_failure_creates_no_record (env : Env)
    (bucketName : String) (fileData : FileData) (userId : Nat) (st : St)
    (hType : fileData.mimetype ∈ allowedTypes)
    (hSize : fileData.size ≤ maxSize)
    (hFail : env.uploadOk = false) :
    uploadFile env bucketName fileData userId st =
      (.error ⟨500, "Failed to upload file"⟩,
        recordCall
          (.uploadData bucketName
            (mkKey userId (env.uuid ++ extname fileData.originalname))) st) ∧
    (uploadFile env bucketName fileData userId st).2.db = st.db ∧
    (uploadFile env bucketName fileData userId st).2.storage = st.storage ∧
    (∀ env' : Env,
      (uploadFile env' bucketName fileData userId st).2.db ≠ st.db →
      env'.uploadOk = true) := by
  have hS : ¬ fileData.size > maxSize := by omega
  refine ⟨?_, ?_, ?_, ?_⟩
  · simp [uploadFile, hType, hS, hFail]
  · simp [uploadFile, hType, hS, hFail, recordCall]
  · simp [uploadFile, hType, hS, hFail, recordCall]
  · intro env' hne
    cases hok : env'.uploadOk with
    | true => rfl
    | false =>
        exact absurd (by simp [uploadFile, hType, hS, hok, recordCall]) hne

/-- Witness for C7: the failing upload of a valid pdf payload leaves the
database and blob store of `st1` untouched and reports the 500 error. -/
theorem c7_witness :
    uploadFile envUploadFail "b" pdfData 2 st1 =
      (.error ⟨500, "Failed to upload file"⟩,
        recordCall
          (.uploadData "b"
            (mkKey 2 (envUploadFail.uuid ++ extname pdfData.originalname)))
          st1) ∧
    (uploadFile envUploadFail "b" pdfData 2 st1).2.db = st1.db ∧
    (uploadFile envUploadFail "b" pdfData 2 st1).2.storage = st1.storage :=
  have h := c7_storage_failure_creates_no_record envUploadFail "b" pdfData
    2 st1 (by decide) (by decide) (by decide)
  ⟨h.1, h.2.1, h.2.2.1⟩

/-- C3: with an allow-listed content type and a size within the cap, a
successful `upload` (all external calls succeeding) returns a record
carrying the uploaded `contentType`/`size`/`originalName` and the id
assigned at creation (`nextId`), and a subsequent `get` with that id and
the same owner — under any environment — returns a record with those
same `contentType`, `size`, `originalName`, and id. The `hIds`
hypothesis is the auto-increment invariant: every existing row's id is
below the counter. -/
theorem c3_upload_get_roundtrip (env1 env2 : Env) (bucketName : String)
    (fileData : FileData) (userId : Nat) (st : St)
    (hType : fileData.mimetype ∈ allowedTypes)
    (hSize : fileData.size ≤ maxSize)
    (hUp : env1.uploadOk = true) (hSign : env1.signOk = true)
    (hDb : env1.dbOk = true)
    (hIds : ∀ f ∈ st.db, f.id < st.nextId) :
    ∃ file g : FileRec,
      (uploadFile env1 bucketName fileData userId st).1 = .ok file ∧
      file.id = st.nextId ∧
      file.contentType = fileData.mimetype ∧
      file.size = fileData.size ∧
      file.originalName = fileData.originalname ∧
      (getFileById env2 bucketName file.id userId
          (uploadFile env1 bucketName fileData userId st).2).1 = some g ∧
      g.id = file.id ∧
      g.contentType = fileData.mimetype ∧
      g.size = fileData.size ∧
      g.originalName = fileData.originalname := by
  have hS : ¬ fileData.size > maxSize := by omega
  have hup : uploadFile env1 bucketName fileData userId st =
      (.ok ⟨st.nextId, env1.uuid ++ extname fileData.originalname,
          fileData.originalname, fileData.mimetype, fileData.size,
          env1.url, st.now, st.now, userId⟩,
        { st with
          db := st.db ++
            [⟨st.nextId, env1.uuid ++ extname fileData.originalname,
              fileData.originalname, fileData.mimetype, fileData.size,
              env1.url, st.now, st.now, userId⟩]
        , nextId := st.nextId + 1
        , storage :=
            (mkKey userId (env1.uuid ++ extname fileData.originalname),
              fileData.buffer) ::
              st.storage.filter
                (fun kv =>
                  kv.1 ≠ mkKey userId
                    (env1.uuid ++ extname fileData.originalname))
        , trace :=
            .genSignedUrl bucketName
                (mkKey userId (env1.uuid ++ extname fileData.originalname)) ::
              .uploadData bucketName
                (mkKey userId (env1.uuid ++ extname fileData.originalname)) ::
              st.trace }) := by
    simp [uploadFile, hType, hS, hUp, hSign, hDb, recordCall, storagePut]
  have hnone : findFirst st.db st.nextId userId = none :=
    findFirst_eq_none_of_not_owned _ _ _
      (fun f hf h1 => absurd h1 (Nat.ne_of_lt (hIds f hf)))
  have hfind :
      findFirst (uploadFile env1 bucketName fileData userId st).2.db
        st.nextId userId =
      some ⟨st.nextId, env1.uuid ++ extname fileData.originalname,
        fileData.originalname, fileData.mimetype, fileData.size,
        env1.url, st.now, st.now, userId⟩ := by
    rw [hup]
    rw [findFirst_append_singleton _ _ _ _ hnone]
    simp [findFirst]
  obtain ⟨g, hg, hgid, hgct, hgsz, hgon, _, _⟩ :=
    getFileById_preserves_fields env2 bucketName st.nextId userId
      (uploadFile env1 bucketName fileData userId st).2 _ hfind
  exact ⟨_, g, by rw [hup], rfl, rfl, rfl, rfl, hg, hgid, hgct, hgsz, hgon⟩

/-- Witness for C3: uploading `pdfData` as user 2 into `st1` and reading
it back returns matching metadata. -/
theorem c3_witness :
    ∃ file g : FileRec,
      (uploadFile envAllOk "b" pdfData 2 st1).1 = .ok file ∧
      file.id = st1.nextId ∧
      file.contentType = pdfData.mimetype ∧
      file.size = pdfData.size ∧
      file.originalName = pdfData.originalname ∧
      (getFileById envAllOk "b" file.id 2
          (uploadFile envAllOk "b" pdfData 2 st1).2).1 = some g ∧
      g.id = file.id ∧
      g.contentType = pdfData.mimetype ∧
      g.size = pdfData.size ∧
      g.originalName = pdfData.originalname :=
  c3_upload_get_roundtrip envAllOk envAllOk "b" pdfData 2 st1
    (by decide) (by decide) (by decide) (by decide) (by decide) (by decide)

/-- C4: a successful `update` on an existing owned record, with a freshly
generated filename (one differing from the stored filename), first
issues the delete of the old blob key, then the upload of the new blob
under a new key different from the old one, then the signed-URL call;
the database row is updated to exactly the new `filename` (storage key),
`originalName`, `contentType`, `size`, and `signedUrl` (plus the
`@updatedAt` touch), while `id`, `userId`, and `uploadedAt` are
unchanged; afterwards the old key holds no blob and the new key does. -/
theorem c4_update_deletes_old_then_uploads_new (env : Env)
    (bucketName : String) (id userId : Nat) (fileData : FileData) (st : St)
    (ex : FileRec)
    (hFound : findFirst st.db id userId = some ex)
    (hType : fileData.mimetype ∈ allowedTypes)
    (hSize : fileData.size ≤ maxSize)
    (hDel : env.delOk = true) (hUp : env.uploadOk = true)
    (hSign : env.signOk = true) (hDb : env.dbOk = true)
    (hFresh : env.uuid ++ extname fileData.originalname ≠ ex.filename) :
    mkKey userId (env.uuid ++ extname fileData.originalname) ≠
      mkKey userId ex.filename ∧
    (updateFileById env bucketName id userId fileData st).1 =
      .ok ⟨ex.id, env.uuid ++ extname fileData.originalname,
        fileData.originalname, fileData.mimetype, fileData.size, env.url,
        ex.uploadedAt, st.now, ex.userId⟩ ∧
    (updateFileById env bucketName id userId fileData st).2.trace =
      .genSignedUrl bucketName
          (mkKey userId (env.uuid ++ extname fileData.originalname)) ::
        .uploadData bucketName
          (mkKey userId (env.uuid ++ extname fileData.originalname)) ::
        .del bucketName (mkKey userId ex.filename) :: st.trace ∧
    mkKey userId ex.filename ∉
      storageKeys (updateFileById env bucketName id userId fileData st).2 ∧
    mkKey userId (env.uuid ++ extname fileData.originalname) ∈
      storageKeys (updateFileById env bucketName id userId fileData st).2 ∧
    (updateFileById env bucketName id userId fileData st).2.db =
      dbUpdateById id
        (fun r =>
          { r with
            filename := env.uuid ++ extname fileData.originalname
          , originalName := fileData.originalname
          , contentType := fileData.mimetype
          , size := fileData.size
          , signedUrl := env.url }) st.now st.db ∧
    (∀ r ∈ st.db, ¬ r.id = id →
      r ∈ (updateFileById env bucketName id userId fileData st).2.db) := by
  have hS : ¬ fileData.size > maxSize := by omega
  have hNe : mkKey userId (env.uuid ++ extname fileData.originalname) ≠
      mkKey userId ex.filename :=
    fun h => hFresh (mkKey_filename_inj h)
  have hU : updateFileById env bucketName id userId fileData st =
      (.ok ⟨ex.id, env.uuid ++ extname fileData.originalname,
          fileData.originalname, fileData.mimetype, fileData.size, env.url,
          ex.uploadedAt, st.now, ex.userId⟩,
        { st with
          storage :=
            (mkKey userId (env.uuid ++ extname fileData.originalname),
              fileData.buffer) ::
              ((st.storage.filter
                  (fun kv => kv.1 ≠ mkKey userId ex.filename)).filter
                (fun kv =>
                  kv.1 ≠
                    mkKey userId (env.uuid ++ extname fileData.originalname)))
        , trace :=
            .genSignedUrl bucketName
                (mkKey userId (env.uuid ++ extname fileData.originalname)) ::
              .uploadData bucketName
                (mkKey userId (env.uuid ++ extname fileData.originalname)) ::
              .del bucketName (mkKey userId ex.filename) :: st.trace
        , db :=
            dbUpdateById id
              (fun r =>
                { r with
                  filename := env.uuid ++ extname fileData.originalname
                , originalName := fileData.originalname
                , contentType := fileData.mimetype
                , size := fileData.size
                , signedUrl := env.url }) st.now st.db }) := by
    simp [updateFileById, hFound, hType, hS, hDel, hUp, hSign, hDb,
      recordCall, storageErase, storagePut]
  refine ⟨hNe, by rw [hU], by rw [hU], ?_, ?_, by rw [hU], ?_⟩
  · rw [hU]
    intro hmem
    simp only [storageKeys, List.mem_map] at hmem
    obtain ⟨⟨k, d⟩, hk, hfst⟩ := hmem
    rcases List.mem_cons.mp hk with h | h
    · injection h with h1 h2
      subst h1
      exact hNe hfst
    · have h2 := (List.mem_filter.mp (List.mem_filter.mp h).1).2
      simp at h2
      exact h2 hfst
  · rw [hU]
    simp [storageKeys]
  · intro r hr hne
    rw [hU]
    simp only [dbUpdateById, List.mem_map]
    exact ⟨r, hr, by simp [hne]⟩

/-- Witness for C4: replacing `rec1` with `pdfData` as user 2 deletes the
old blob key, uploads under the new key, and rewrites only the replaced
fields. -/
theorem c4_witness :
    mkKey 2 (envAllOk.uuid ++ extname pdfData.originalname) ≠
      mkKey 2 rec1.filename ∧
    (updateFileById envAllOk "b" 1 2 pdfData st1).1 =
      .ok ⟨rec1.id, envAllOk.uuid ++ extname pdfData.originalname,
        pdfData.originalname, pdfData.mimetype, pdfData.size, envAllOk.url,
        rec1.uploadedAt, st1.now, rec1.userId⟩ ∧
    (updateFileById envAllOk "b" 1 2 pdfData st1).2.trace =
      .genSignedUrl "b" (mkKey 2 (envAllOk.uuid ++ extname pdfData.originalname)) ::
        .uploadData "b" (mkKey 2 (envAllOk.uuid ++ extname pdfData.originalname)) ::
        .del "b" (mkKey 2 rec1.filename) :: st1.trace ∧
    mkKey 2 rec1.filename ∉
      storageKeys (updateFileById envAllOk "b" 1 2 pdfData st1).2 ∧
    mkKey 2 (envAllOk.uuid ++ extname pdfData.originalname) ∈
      storageKeys (updateFileById envAllOk "b" 1 2 pdfData st1).2 ∧
    (updateFileById envAllOk "b" 1 2 pdfData st1).2.db =
      dbUpdateById 1
        (fun r =>
          { r with
            filename := envAllOk.uuid ++ extname pdfData.originalname
          , originalName := pdfData.originalname
          , contentType := pdfData.mimetype
          , size := pdfData.size
          , signedUrl := envAllOk.url }) st1.now st1.db :=
  have h := c4_update_deletes_old_then_uploads_new envAllOk "b" 1 2 pdfData
    st1 rec1 (by decide) (by decide) (by decide) (by decide) (by decide)
    (by decide) (by decide) (by decide)
  ⟨h.1, h.2.1, h.2.2.1, h.2.2.2.1, h.2.2.2.2.1, h.2.2.2.2.2.1⟩

/-- C5: a successful `delete` on an existing owned record issues the
blob deletion first (recorded in the trace), leaves no blob under the
record's key, removes the database row, and a subsequent `get` with the
same `(id, userId)` — under any environment — returns `null` with the
state unchanged. (Absence of the blob is tolerated: nothing in the
hypotheses requires the key to hold a blob.) -/
theorem c5_delete_removes_blob_and_record (env : Env) (bucketName : String)
    (id userId : Nat) (st : St) (f : FileRec)
    (hFound : findFirst st.db id userId = some f)
    (hDel : env.delOk = true) (hDb : env.dbOk = true) :
    (deleteFileById env bucketName id userId st).1 = .ok f ∧
    (deleteFileById env bucketName id userId st).2.trace =
      .del bucketName (mkKey userId f.filename) :: st.trace ∧
    mkKey userId f.filename ∉
      storageKeys (deleteFileById env bucketName id userId st).2 ∧
    (deleteFileById env bucketName id userId st).2.db =
      st.db.filter (fun r => ¬ r.id = id) ∧
    (∀ env2 : Env,
      getFileById env2 bucketName id userId
        (deleteFileById env bucketName id userId st).2 =
      (none, (deleteFileById env bucketName id userId st).2)) := by
  have hU : deleteFileById env bucketName id userId st =
      (.ok f,
        { st with
          storage :=
            st.storage.filter (fun kv => kv.1 ≠ mkKey userId f.filename)
        , trace := .del bucketName (mkKey userId f.filename) :: st.trace
        , db := st.db.filter (fun r => ¬ r.id = id) }) := by
    simp [deleteFileById, hFound, hDel, hDb, recordCall, storageErase]
  have hnone :
      findFirst (deleteFileById env bucketName id userId st).2.db id
        userId = none := by
    rw [hU]
    refine findFirst_eq_none_of_not_owned _ _ _ (fun r hr h1 => ?_)
    have := (List.mem_filter.mp hr).2
    simp at this
    exact absurd h1 this
  refine ⟨by rw [hU], by rw [hU], ?_, by rw [hU], fun env2 => ?_⟩
  · rw [hU]
    intro hmem
    simp only [storageKeys, List.mem_map] at hmem
    obtain ⟨⟨k, d⟩, hk, hfst⟩ := hmem
    have h2 := (List.mem_filter.mp hk).2
    simp at h2
    exact h2 hfst
  · simp [getFileById, hnone]

/-- Witness for C5: deleting `rec1` as user 2 removes its blob key and
row, and the immediate re-read returns `null`. -/
theorem c5_witness :
    (deleteFileById envAllOk "b" 1 2 st1).1 = .ok rec1 ∧
    (deleteFileById envAllOk "b" 1 2 st1).2.trace =
      .del "b" (mkKey 2 rec1.filename) :: st1.trace ∧
    mkKey 2 rec1.filename ∉
      storageKeys (deleteFileById envAllOk "b" 1 2 st1).2 ∧
    (deleteFileById envAllOk "b" 1 2 st1).2.db =
      st1.db.filter (fun r => ¬ r.id = 1) ∧
    getFileById envAllOk "b" 1 2 (deleteFileById envAllOk "b" 1 2 st1).2 =
      (none, (deleteFileById envAllOk "b" 1 2 st1).2) :=
  have h := c5_delete_removes_blob_and_record envAllOk "b" 1 2 st1 rec1
    (by decide) (by decide) (by decide)
  ⟨h.1, h.2.1, h.2.2.1, h.2.2.2.1, h.2.2.2.2 envAllOk⟩

/-- C6: `get` on an existing owned record never fails because of the
storage side: if the signed-URL regeneration or the persisting database
write fails, it returns the record with its last-known `signedUrl` and
leaves the database unchanged; if both succeed, it persists and returns
the record with the refreshed `signedUrl`; and under every environment
the read yields a record. -/
theorem c6_get_survives_storage_failure (env : Env) (bucketName : String)
    (id userId : Nat) (st : St) (f : FileRec)
    (hFound : findFirst st.db id userId = some f) :
    (env.signOk = false ∨ env.dbOk = false →
      getFileById env bucketName id userId st =
        (some f,
          recordCall (.genSignedUrl bucketName (mkKey userId f.filename))
            st)) ∧
    (env.signOk = true → env.dbOk = true →
      getFileById env bucketName id userId st =
        (some { f with signedUrl := env.url, updatedAt := st.now },
          { st with
            trace :=
              .genSignedUrl bucketName (mkKey userId f.filename) :: st.trace
          , db :=
              dbUpdateById id (fun r => { r with signedUrl := env.url })
                st.now st.db })) ∧
    (∀ env2 : Env,
      ((getFileById env2 bucketName id userId st).1).isSome = true) := by
  refine ⟨fun h => ?_, fun hs hd => ?_, fun env2 => ?_⟩
  · rcases h with h | h
    · simp [getFileById, hFound, h, recordCall]
    · by_cases hs : env.signOk = true
      · simp [getFileById, hFound, hs, h, recordCall]
      · simp [getFileById, hFound, hs, recordCall]
  · simp [getFileById, hFound, hs, hd, recordCall, dbUpdateById]
  · by_cases hs : env2.signOk = true
    · by_cases hd : env2.dbOk = true
      · simp [getFileById, hFound, hs, hd]
      · simp [getFileById, hFound, hs, hd]
    · simp [getFileById, hFound, hs]

/-- Witness for C6: with the signed-URL call failing, user 2 still reads
`rec1` back with its stored URL; with everything succeeding, the read
returns and persists the refreshed URL. -/
theorem c6_witness :
    getFileById envSignFail "b" 1 2 st1 =
      (some rec1,
        recordCall (.genSignedUrl "b" (mkKey 2 rec1.filename)) st1) ∧
    getFileById envAllOk "b" 1 2 st1 =
      (some { rec1 with signedUrl := envAllOk.url, updatedAt := st1.now },
        { st1 with
          trace := .genSignedUrl "b" (mkKey 2 rec1.filename) :: st1.trace
        , db :=
            dbUpdateById 1 (fun r => { r with signedUrl := envAllOk.url })
              st1.now st1.db }) ∧
    ((getFileById envSignFail "b" 1 2 st1).1).isSome = true :=
  ⟨(c6_get_survives_storage_failure envSignFail "b" 1 2 st1 rec1
      (by decide)).1 (Or.inl (by decide)),
   (c6_get_survives_storage_failure envAllOk "b" 1 2 st1 rec1
      (by decide)).2.1 (by decide) (by decide),
   (c6_get_survives_storage_failure envSignFail "b" 1 2 st1 rec1
      (by decide)).2.2 envSignFail⟩

/-- C8: `list` returns only the caller's records, returns at most
`limit` of them, orders them by the requested field and direction, and
is exactly the `(page-1)*limit`-offset, `limit`-long slice of the sorted
owner-scoped rows; omitted options default to page 1, limit 10,
`uploadedAt` descending. -/
theorem c8_list_owner_scoped_paged_sorted (userId page limit : Nat)
    (sf : SortField) (d : SortDir) (st : St) :
    (∀ f ∈ queryUserFiles userId ⟨some page, some limit, some sf, some d⟩ st,
      f.userId = userId) ∧
    (queryUserFiles userId ⟨some page, some limit, some sf, some d⟩
        st).length ≤ limit ∧
    (queryUserFiles userId ⟨some page, some limit, some sf, some d⟩
        st).Pairwise (fun a b => fieldLe sf d a b = true) ∧
    queryUserFiles userId ⟨some page, some limit, some sf, some d⟩ st =
      (((st.db.filter (fun f => f.userId == userId)).mergeSort
          (fieldLe sf d)).drop ((page - 1) * limit)).take limit ∧
    queryUserFiles userId ⟨none, none, none, none⟩ st =
      queryUserFiles userId ⟨some 1, some 10, some .uploadedAt, some .desc⟩
        st := by
  refine ⟨?_, ?_, ?_, rfl, rfl⟩
  · intro f hf
    have h1 : f ∈ (st.db.filter (fun f => f.userId == userId)).mergeSort
        (fieldLe sf d) :=
      List.drop_subset _ _ (List.take_subset _ _ hf)
    have h2 := List.mem_filter.mp (List.mem_mergeSort.mp h1)
    exact beq_iff_eq.mp h2.2
  · simp [queryUserFiles, List.length_take]
  · refine List.Pairwise.sublist
      ((List.take_sublist _ _).trans (List.drop_sublist _ _)) ?_
    exact List.sorted_mergeSort (fun a b c => fieldLe_trans sf d a b c)
      (fun a b => fieldLe_total sf d a b) _

/-- Witness for C8: in `st1`, user 2's page-1 limit-10 listing by
descending `uploadedAt` is `[rec1]`, obeys the cap with limit 1, and
the all-defaults call equals the explicit-defaults call. -/
theorem c8_witness :
    (queryUserFiles 2 ⟨some 1, some 1, some .size, some .asc⟩
        st1).length ≤ 1 ∧
    queryUserFiles 2 ⟨some 1, some 10, some .uploadedAt, some .desc⟩ st1 =
      (((st1.db.filter (fun f => f.userId == 2)).mergeSort
          (fieldLe .uploadedAt .desc)).drop ((1 - 1) * 10)).take 10 ∧
    queryUserFiles 2 ⟨none, none, none, none⟩ st1 =
      queryUserFiles 2 ⟨some 1, some 10, some .uploadedAt, some .desc⟩ st1 :=
  ⟨(c8_list_owner_scoped_paged_sorted 2 1 1 .size .asc st1).2.1,
   (c8_list_owner_scoped_paged_sorted 2 1 10 .uploadedAt .desc st1).2.2.2.1,
   (c8_list_owner_scoped_paged_sorted 2 1 10 .uploadedAt .desc st1).2.2.2.2⟩

/-- Along the guarded paths (every storage call and every database call
inside a try/catch), the operations return either a success value or one
of the typed `ApiError`s — upload: 415/413/500; update: 404/415/413/500;
delete: 404/500 (`errCode 0` standing for success) — and `get` returns
either `null` or a record. -/
theorem base_ops_typed_errors (env : Env) (bucketName : String)
    (fileData : FileData) (id userId : Nat) (st : St) :
    errCode (uploadFile env bucketName fileData userId st).1 ∈
      ([0, 413, 415, 500] : List Nat) ∧
    errCode (updateFileById env bucketName id userId fileData st).1 ∈
      ([0, 404, 413, 415, 500] : List Nat) ∧
    errCode (deleteFileById env bucketName id userId st).1 ∈
      ([0, 404, 500] : List Nat) ∧
    ((getFileById env bucketName id userId st).1 = none ∨
      ∃ g, (getFileById env bucketName id userId st).1 = some g) := by
  obtain ⟨uuid, url, up, sign, del, dbo⟩ := env
  refine ⟨?_, ?_, ?_, ?_⟩
  · by_cases h1 : fileData.mimetype ∈ allowedTypes
    · by_cases h2 : fileData.size > maxSize
      · simp [uploadFile, h1, h2, errCode]
      · cases up <;> cases sign <;> cases dbo <;>
          simp [uploadFile, h1, h2, errCode, recordCall, storagePut]
    · simp [uploadFile, h1, errCode]
  · cases hf : findFirst st.db id userId with
    | none => simp [updateFileById, hf, errCode]
    | some ex =>
        by_cases h1 : fileData.mimetype ∈ allowedTypes
        · by_cases h2 : fileData.size > maxSize
          · simp [updateFileById, hf, h1, h2, errCode]
          · cases del <;> cases up <;> cases sign <;> cases dbo <;>
              simp [updateFileById, hf, h1, h2, errCode, recordCall,
                storagePut, storageErase]
        · simp [updateFileById, hf, h1, errCode]
  · cases hf : findFirst st.db id userId with
    | none => simp [deleteFileById, hf, errCode]
    | some f =>
        cases del <;> cases dbo <;>
          simp [deleteFileById, hf, errCode, recordCall, storageErase]
  · cases hf : findFirst st.db id userId with
    | none => exact Or.inl (by simp [getFileById, hf])
    | some f =>
        cases sign <;> cases dbo
        · exact Or.inr ⟨f, by simp [getFileById, hf, recordCall]⟩
        · exact Or.inr ⟨f, by simp [getFileById, hf, recordCall]⟩
        · exact Or.inr ⟨f, by simp [getFileById, hf, recordCall]⟩
        · exact Or.inr ⟨{ f with signedUrl := url, updatedAt := st.now },
            by simp [getFileById, hf, recordCall]⟩

/-- C10: given a slash-free generated UUID and slash-free stored
filenames, every storage call any operation issues beyond the calls
already in the trace addresses a key of the form
`files/<userId>/<filename>` for the calling owner with a slash-free
filename; and keys of distinct owners never coincide, so no operation of
one owner ever addresses another owner's blob key. -/
theorem c10_storage_calls_owner_scoped (env : Env) (bucketName : String)
    (fileData : FileData) (id userId : Nat) (st : St)
    (hUuid : '/' ∉ env.uuid.data)
    (hDb : ∀ f ∈ st.db, '/' ∉ f.filename.data) :
    (∀ c ∈ (uploadFile env bucketName fileData userId st).2.trace,
      c ∈ st.trace ∨ ownedKey userId c.key) ∧
    (∀ c ∈ (getFileById env bucketName id userId st).2.trace,
      c ∈ st.trace ∨ ownedKey userId c.key) ∧
    (∀ c ∈ (updateFileById env bucketName id userId fileData st).2.trace,
      c ∈ st.trace ∨ ownedKey userId c.key) ∧
    (∀ c ∈ (deleteFileById env bucketName id userId st).2.trace,
      c ∈ st.trace ∨ ownedKey userId c.key) ∧
    (∀ u v : Nat, ∀ a b : String, u ≠ v → mkKey u a ≠ mkKey v b) := by
  have hNew : ownedKey userId
      (mkKey userId (env.uuid ++ extname fileData.originalname)) :=
    ⟨_, filename_no_slash _ _ hUuid, rfl⟩
  refine ⟨?_, ?_, ?_, ?_, fun u v a b hne heq => hne (mkKey_owner_inj heq).1⟩
  · by_cases h1 : fileData.mimetype ∈ allowedTypes
    · by_cases h2 : fileData.size > maxSize
      · have ht : (uploadFile env bucketName fileData userId st).2.trace =
            st.trace := by simp [uploadFile, h1, h2]
        intro c hc; rw [ht] at hc; exact Or.inl hc
      · by_cases hup : env.uploadOk = false
        · have ht : (uploadFile env bucketName fileData userId st).2.trace =
              [.uploadData bucketName
                (mkKey userId (env.uuid ++ extname fileData.originalname))] ++
                st.trace := by
            simp [uploadFile, h1, h2, hup, recordCall]
          rw [ht]
          exact mem_calls_append (by
            intro c hc; rw [List.mem_singleton.mp hc]; exact hNew)
        · have ht : (uploadFile env bucketName fileData userId st).2.trace =
              [.genSignedUrl bucketName
                (mkKey userId (env.uuid ++ extname fileData.originalname)),
              .uploadData bucketName
                (mkKey userId (env.uuid ++ extname fileData.originalname))] ++
                st.trace := by
            by_cases hs : env.signOk = false
            · simp [uploadFile, h1, h2, hup, hs, recordCall, storagePut]
            · by_cases hd : env.dbOk = false
              · simp [uploadFile, h1, h2, hup, hs, hd, recordCall, storagePut]
              · simp [uploadFile, h1, h2, hup, hs, hd, recordCall, storagePut]
          rw [ht]
          exact mem_calls_append (by
            intro c hc
            rcases List.mem_cons.mp hc with rfl | hc
            · exact hNew
            · rw [List.mem_singleton.mp hc]; exact hNew)
    · have ht : (uploadFile env bucketName fileData userId st).2.trace =
          st.trace := by simp [uploadFile, h1]
      intro c hc; rw [ht] at hc; exact Or.inl hc
  · cases hf : findFirst st.db id userId with
    | none =>
        have ht : (getFileById env bucketName id userId st).2.trace =
            st.trace := by simp [getFileById, hf]
        intro c hc; rw [ht] at hc; exact Or.inl hc
    | some f =>
        have hOld : ownedKey userId (mkKey userId f.filename) :=
          ⟨f.filename, hDb f (List.mem_of_find?_eq_some hf), rfl⟩
        have ht : (getFileById env bucketName id userId st).2.trace =
            [.genSignedUrl bucketName (mkKey userId f.filename)] ++
              st.trace := by
          by_cases hs : env.signOk = false
          · simp [getFileById, hf, hs, recordCall]
          · by_cases hd : env.dbOk = false
            · simp [getFileById, hf, hs, hd, recordCall]
            · simp [getFileById, hf, hs, hd, recordCall]
        rw [ht]
        exact mem_calls_append (by
          intro c hc; rw [List.mem_singleton.mp hc]; exact hOld)
  · cases hf : findFirst st.db id userId with
    | none =>
        have ht :
            (updateFileById env bucketName id userId fileData st).2.trace =
              st.trace := by simp [updateFileById, hf]
        intro c hc; rw [ht] at hc; exact Or.inl hc
    | some ex =>
        have hOld : ownedKey userId (mkKey userId ex.filename) :=
          ⟨ex.filename, hDb ex (List.mem_of_find?_eq_some hf), rfl⟩
        by_cases h1 : fileData.mimetype ∈ allowedTypes
        · by_cases h2 : fileData.size > maxSize
          · have ht :
                (updateFileById env bucketName id userId fileData
                  st).2.trace = st.trace := by
              simp [updateFileById, hf, h1, h2]
            intro c hc; rw [ht] at hc; exact Or.inl hc
          · by_cases hdel : env.delOk = false
            · have ht :
                  (updateFileById env bucketName id userId fileData
                    st).2.trace =
                  [.del bucketName (mkKey userId ex.filename)] ++
                    st.trace := by
                simp [updateFileById, hf, h1, h2, hdel, recordCall]
              rw [ht]
              exact mem_calls_append (by
                intro c hc; rw [List.mem_singleton.mp hc]; exact hOld)
            · by_cases hup : env.uploadOk = false
              · have ht :
                    (updateFileById env bucketName id userId fileData
                      st).2.trace =
                    [.uploadData bucketName
                        (mkKey userId
                          (env.uuid ++ extname fileData.originalname)),
                      .del bucketName (mkKey userId ex.filename)] ++
                      st.trace := by
                  simp [updateFileById, hf, h1, h2, hdel, hup, recordCall,
                    storageErase]
                rw [ht]
                exact mem_calls_append (by
                  intro c hc
                  rcases List.mem_cons.mp hc with rfl | hc
                  · exact hNew
                  · rw [List.mem_singleton.mp hc]; exact hOld)
              · have ht :
                    (updateFileById env bucketName id userId fileData
                      st).2.trace =
                    [.genSignedUrl bucketName
                        (mkKey userId
                          (env.uuid ++ extname fileData.originalname)),
                      .uploadData bucketName
                        (mkKey userId
                          (env.uuid ++ extname fileData.originalname)),
                      .del bucketName (mkKey userId ex.filename)] ++
                      st.trace := by
                  by_cases hs : env.signOk = false
                  · simp [updateFileById, hf, h1, h2, hdel, hup, hs,
                      recordCall, storageErase, storagePut]
                  · by_cases hd : env.dbOk = false
                    · simp [updateFileById, hf, h1, h2, hdel, hup, hs, hd,
                        recordCall, storageErase, storagePut]
                    · simp [updateFileById, hf, h1, h2, hdel, hup, hs, hd,
                        recordCall, storageErase, storagePut]
                rw [ht]
                exact mem_calls_append (by
                  intro c hc
                  rcases List.mem_cons.mp hc with rfl | hc
                  · exact hNew
                  · rcases List.mem_cons.mp hc with rfl | hc
                    · exact hNew
                    · rw [List.mem_singleton.mp hc]; exact hOld)
        · have ht :
              (updateFileById env bucketName id userId fileData
                st).2.trace = st.trace := by
            simp [updateFileById, hf, h1]
          intro c hc; rw [ht] at hc; exact Or.inl hc
  · cases hf : findFirst st.db id userId with
    | none =>
        have ht :
            (deleteFileById env bucketName id userId st).2.trace =
              st.trace := by simp [deleteFileById, hf]
        intro c hc; rw [ht] at hc; exact Or.inl hc
    | some f =>
        have hOld : ownedKey userId (mkKey userId f.filename) :=
          ⟨f.filename, hDb f (List.mem_of_find?_eq_some hf), rfl⟩
        have ht : (deleteFileById env bucketName id userId st).2.trace =
            [.del bucketName (mkKey userId f.filename)] ++ st.trace := by
          by_cases hdel : env.delOk = false
          · simp [deleteFileById, hf, hdel, recordCall]
          · by_cases hd : env.dbOk = false
            · simp [deleteFileById, hf, hdel, hd, recordCall, storageErase]
            · simp [deleteFileById, hf, hdel, hd, recordCall, storageErase]
        rw [ht]
        exact mem_calls_append (by
          intro c hc; rw [List.mem_singleton.mp hc]; exact hOld)

/-- Witness for C10: with the concrete environment and state, distinct
owners 1 and 2 can never address one another's keys. -/
theorem c10_witness : mkKey 1 "x" ≠ mkKey 2 "y" :=
  (c10_storage_calls_owner_scoped envAllOk "b" pdfData 1 2 st1 (by decide)
    (by decide)).2.2.2.2 1 2 "x" "y" (by decide)

/-- Counterexample to C9 as stated: the claim quantifies over every
database-call failure, but when the unguarded opening database read
rejects, `get`, `list`, `update`, and `delete` all propagate the raw,
untyped failure — an outcome that is neither a success value nor a
typed `ApiError` (`code = none`). -/
theorem c9_counterexample :
    getFileByIdR envReadFail "b" 1 2 st1 = (.raw, st1) ∧
    queryUserFilesR envReadFail 2 ⟨none, none, none, none⟩ st1 =
      (.raw, st1) ∧
    updateFileByIdR envReadFail "b" 1 2 pdfData st1 = (.raw, st1) ∧
    deleteFileByIdR envReadFail "b" 1 2 st1 = (.raw, st1) ∧
    ((getFileByIdR envReadFail "b" 1 2 st1).1).code = none ∧
    ((updateFileByIdR envReadFail "b" 1 2 pdfData st1).1).code = none :=
  ⟨rfl, rfl, rfl, rfl, rfl, rfl⟩

/-- C9 amended: `upload` — whose every database call is guarded —
always returns a success value or a typed error with a taxonomy code;
`get`, `list`, `update`, and `delete` do so whenever their unguarded
opening database read succeeds; when that read rejects, each of them
propagates the raw untyped failure with the state unchanged. -/
theorem c9_amended_typed_errors_except_unguarded_reads (env : EnvR)
    (bucketName : String) (fileData : FileData) (id userId : Nat)
    (o : QueryOptions) (st : St) :
    ((uploadFileR env bucketName fileData userId st).1).code ∈
      ([some 0, some 413, some 415, some 500] : List (Option Nat)) ∧
    (env.readOk = true →
      ((getFileByIdR env bucketName id userId st).1).code = some 0 ∧
      ((queryUserFilesR env userId o st).1).code = some 0 ∧
      ((updateFileByIdR env bucketName id userId fileData st).1).code ∈
        ([some 0, some 404, some 413, some 415, some 500] :
          List (Option Nat)) ∧
      ((deleteFileByIdR env bucketName id userId st).1).code ∈
        ([some 0, some 404, some 500] : List (Option Nat))) ∧
    (env.readOk = false →
      getFileByIdR env bucketName id userId st = (.raw, st) ∧
      queryUserFilesR env userId o st = (.raw, st) ∧
      updateFileByIdR env bucketName id userId fileData st = (.raw, st) ∧
      deleteFileByIdR env bucketName id userId st = (.raw, st)) := by
  have hlift : ∀ (r : Except ApiError FileRec),
      (liftExcept r).code = some (errCode r) := by
    intro r; cases r <;> rfl
  have hb := base_ops_typed_errors env.toEnv bucketName fileData id userId st
  refine ⟨?_, fun hr => ⟨?_, ?_, ?_, ?_⟩, fun hr => ⟨?_, ?_, ?_, ?_⟩⟩
  · have h1 := hb.1
    simp only [List.mem_cons, List.not_mem_nil, or_false] at h1 ⊢
    simp only [uploadFileR, hlift]
    rcases h1 with h | h | h | h <;> simp [h]
  · simp [getFileByIdR, hr, Outcome.code]
  · simp [queryUserFilesR, hr, Outcome.code]
  · have h1 := hb.2.1
    simp only [List.mem_cons, List.not_mem_nil, or_false] at h1 ⊢
    simp only [updateFileByIdR, hr]
    rcases h1 with h | h | h | h | h <;> simp [hlift, h]
  · have h1 := hb.2.2.1
    simp only [List.mem_cons, List.not_mem_nil, or_false] at h1 ⊢
    simp only [deleteFileByIdR, hr]
    rcases h1 with h | h | h <;> simp [hlift, h]
  · simp [getFileByIdR, hr]
  · simp [queryUserFilesR, hr]
  · simp [updateFileByIdR, hr]
  · simp [deleteFileByIdR, hr]

/-- Witness for the amended C9: with every call succeeding, upload and
update return taxonomy codes and get succeeds; with the unguarded read
rejecting, get propagates the raw failure. -/
theorem c9_amended_witness :
    ((uploadFileR envRAllOk "b" pdfData 2 st1).1).code ∈
      ([some 0, some 413, some 415, some 500] : List (Option Nat)) ∧
    ((getFileByIdR envRAllOk "b" 1 2 st1).1).code = some 0 ∧
    ((updateFileByIdR envRAllOk "b" 1 2 pdfData st1).1).code ∈
      ([some 0, some 404, some 413, some 415, some 500] :
        List (Option Nat)) ∧
    getFileByIdR envReadFail "b" 1 2 st1 = (.raw, st1) :=
  ⟨(c9_amended_typed_errors_except_unguarded_reads envRAllOk "b" pdfData
      1 2 ⟨none, none, none, none⟩ st1).1,
   ((c9_amended_typed_errors_except_unguarded_reads envRAllOk "b" pdfData
      1 2 ⟨none, none, none, none⟩ st1).2.1 (by decide)).1,
   ((c9_amended_typed_errors_except_unguarded_reads envRAllOk "b" pdfData
      1 2 ⟨none, none, none, none⟩ st1).2.1 (by decide)).2.2.1,
   ((c9_amended_typed_errors_except_unguarded_reads envReadFail "b" pdfData
      1 2 ⟨none, none, none, none⟩ st1).2.2 (by decide)).1⟩

end FileUploader
